import Mathlib

/-!
Verification development for the deep-copy generator repository.

The repository ships a command-line driver (src/main.go) around a code
generation core (the deepcopy package, whose source is not part of the
driver excerpt).  The driver is embedded below definition by definition;
the generation core (selector compiler, type-graph walker, synthesizer,
emitter, orchestrator) is modelled from the specification, each such
definition carrying a doc comment that starts with "Modelled from the
spec".  Machine state that the driver touches (files, the standard output
stream) is made explicit as a small world record threaded through the
embedded functions.
-/

/-- One entry of an association list of file names to contents, updated in
place: replaces the value stored under the key, or appends the binding when
the key is absent. -/
def setAssoc : List (String × String) → String → String → List (String × String)
  | [], n, c => [(n, c)]
  | (k, v) :: rest, n, c =>
      if k = n then (n, c) :: rest else (k, v) :: setAssoc rest n c

/-- The file system and standard output stream visible to the driver. -/
structure World where
  files : List (String × String)
  stdout : String
deriving DecidableEq

/-- typesVal.Set from src/main.go:38-41 - each occurrence of the -type flag
appends exactly one requested type name. -/
def typesVal.Set (f : List String) (v : String) : List String :=
  f ++ [v]

/-- skipsVal.Set from src/main.go:58-68 - each occurrence of the -skip flag
splits its argument on commas, collects the parts into a set
(map[string]struct in Go, a Finset here, so duplicates collapse), and
appends that one set. -/
def skipsVal.Set (f : List (Finset String)) (v : String) : List (Finset String) :=
  f ++ [(v.splitOn ",").toFinset]

/-- buildTagsVal.Set from src/main.go:121-124 - each occurrence of the
-tags flag appends its raw argument as a single element; no splitting
occurs (contrast skipsVal.Set). -/
def buildTagsVal.Set (b : List String) (v : String) : List String :=
  b ++ [v]

/-- outputVal from src/main.go:70-73: the flag value holds the chosen name
and an optional open file (none means the standard output stream). -/
structure outputVal where
  name : String
  file : Option String
deriving DecidableEq

/-- outputVal.Set from src/main.go:79-100 (success path of os.OpenFile).
A value of "-" or "" selects the standard output stream; otherwise the
named file is opened with O_RDWR and O_CREATE, which creates an empty file
when absent and preserves existing content (no truncation here). -/
def outputVal.Set (f : outputVal) (w : World) (v : String) : outputVal × World :=
  if v = "-" ∨ v = "" then (⟨"stdout", none⟩, w)
  else
    let w' : World :=
      if (w.files.lookup v).isSome then w
      else ⟨setAssoc w.files v "", w.stdout⟩
    (⟨v, some v⟩, w')

/-- The sink returned by outputVal.Open: the standard output stream or a
named file. -/
inductive Sink
  | stdout
  | file (name : String)
deriving DecidableEq

/-- outputVal.Open from src/main.go:102-113: when no file was set the sink
is the standard output stream; otherwise the already-open file is truncated
to length zero before being handed back (Truncate modelled as always
succeeding). -/
def outputVal.Open (f : outputVal) (w : World) : World × Sink :=
  match f.file with
  | none => (w, Sink.stdout)
  | some n => (⟨setAssoc w.files n "", w.stdout⟩, Sink.file n)

/-- Writing text to a sink: append to the standard output stream, or append
to the named file's current content. -/
def writeSink (w : World) (s : Sink) (text : String) : World :=
  match s with
  | Sink.stdout => ⟨w.files, w.stdout ++ text⟩
  | Sink.file n => ⟨setAssoc w.files n (((w.files.lookup n).getD "") ++ text), w.stdout⟩

/-- Modelled from the spec: a path segment during the type-graph walk - a
struct field crossing (with its name) or a slice/array/map element
crossing. -/
inductive Seg
  | field (name : String)
  | elem
deriving DecidableEq

/-- Modelled from the spec (Selector Compiler): a raw selector string is a
sequence of segments separated by a fixed delimiter, here "."; a segment is
a literal field name or the wildcard "*" denoting any element. -/
def selSegs (s : String) : List String :=
  s.splitOn "."

/-- Modelled from the spec: a literal selector segment matches the equally
named field crossing; the wildcard matches an element crossing. -/
def segMatches (seg : Seg) (pat : String) : Bool :=
  match seg with
  | Seg.field n => pat == n
  | Seg.elem => pat == "*"

/-- Modelled from the spec: a path matches a selector when they have the
same length and every segment matches positionally. -/
def matchSel (path : List Seg) (sel : String) : Bool :=
  let pats := selSegs sel
  pats.length == path.length && (List.zip path pats).all fun pr => segMatches pr.1 pr.2

/-- Modelled from the spec: whether any selector of the skip set matches
the current path.  The set is consulted through membership alone, so the
answer depends only on the set, never on any insertion order. -/
def matchAnyB (skips : Finset String) (path : List Seg) : Bool :=
  decide (∃ s ∈ skips, matchSel path s = true)

/-- Modelled from the spec (TypeShape, index-addressed as the design notes
prescribe): shape nodes live in an arena and refer to each other by
position, so cyclic type graphs are finitely representable. -/
inductive ShapeNode
  | basic
  | named (underlying : Nat) (pkgPath : String)
  | pointer (elem : Nat)
  | slice (elem : Nat)
  | array (elem : Nat) (length : Nat)
  | map (key : Nat) (elem : Nat)
  | struct (fields : List (String × Nat))
  | interface
deriving DecidableEq

/-- Modelled from the spec (CopyPlanNode).  CycleGuard is a leaf here: the
walk stops descending at a shape already on the ancestor path, recording
the back reference instead of re-walking it.  unresolvedRef records a shape
index the arena cannot provide; outOfFuel is the artificial bottom of the
fuel-indexed walk, shown unreachable for sufficient fuel. -/
inductive CopyPlan
  | directAssign
  | allocateAndRecurse (inner : CopyPlan)
  | elementwise (inner : CopyPlan)
  | fieldwise (children : List (String × CopyPlan))
  | dynamicDispatch
  | cycleGuard
  | unresolvedRef
  | outOfFuel

/-- Modelled from the spec: shapes requiring further allocation at the
depth bound are pointers and structs. -/
def isAlloc : ShapeNode → Bool
  | ShapeNode.pointer _ => true
  | ShapeNode.struct _ => true
  | _ => false

/-- Modelled from the spec: the depth-bound cut - maxDepth of zero means
unbounded; otherwise once depth has reached maxDepth a shape requiring
further allocation is shallow-assigned regardless of cycles. -/
def depthCut (maxDepth depth : Nat) (shape : ShapeNode) : Bool :=
  (maxDepth != 0) && (decide (maxDepth ≤ depth)) && isAlloc shape

/-- Modelled from the spec (Type Graph Walker, fuel-indexed): depth-first
traversal keeping the current path, the ancestor set and the depth counter.
Check order follows the algorithm of the walker's contract: selector match,
then the depth bound, then the ancestor stack, then dispatch on the shape
kind.  Depth increments only when crossing a pointer or a struct-field
boundary; slice, array and map wrapping does not increment it. -/
def walkF (arena : List ShapeNode) (skips : Finset String) (maxDepth : Nat) :
    Nat → Nat → List Seg → Finset Nat → Nat → CopyPlan
  | 0, _, _, _, _ => CopyPlan.outOfFuel
  | fuel + 1, id, path, anc, depth =>
    match arena[id]? with
    | none => CopyPlan.unresolvedRef
    | some shape =>
      if matchAnyB skips path then CopyPlan.directAssign
      else if depthCut maxDepth depth shape then CopyPlan.directAssign
      else if id ∈ anc then CopyPlan.cycleGuard
      else
        match shape with
        | ShapeNode.basic => CopyPlan.directAssign
        | ShapeNode.interface => CopyPlan.dynamicDispatch
        | ShapeNode.named u _ =>
            walkF arena skips maxDepth fuel u path (insert id anc) depth
        | ShapeNode.pointer e =>
            CopyPlan.allocateAndRecurse
              (walkF arena skips maxDepth fuel e path (insert id anc) (depth + 1))
        | ShapeNode.slice e =>
            CopyPlan.elementwise
              (walkF arena skips maxDepth fuel e (path ++ [Seg.elem]) (insert id anc) depth)
        | ShapeNode.array e _ =>
            CopyPlan.elementwise
              (walkF arena skips maxDepth fuel e (path ++ [Seg.elem]) (insert id anc) depth)
        | ShapeNode.map _ e =>
            CopyPlan.elementwise
              (walkF arena skips maxDepth fuel e (path ++ [Seg.elem]) (insert id anc) depth)
        | ShapeNode.struct fields =>
            CopyPlan.fieldwise
              (fields.map fun fl =>
                (fl.1, walkF arena skips maxDepth fuel fl.2
                  (path ++ [Seg.field fl.1]) (insert id anc) (depth + 1)))

/-- Modelled from the spec: the type-graph walk, run with enough fuel that
the fuel bound is never the reason the traversal stops (one unit per arena
node on the current path plus one). -/
def walk (arena : List ShapeNode) (skips : Finset String) (maxDepth : Nat)
    (id : Nat) (path : List Seg) (anc : Finset Nat) (depth : Nat) : CopyPlan :=
  walkF arena skips maxDepth (arena.length + 1) id path anc depth

mutual

/-- Modelled from the spec (Copy Plan Synthesizer plus Method Emitter body):
an abstract, deterministic rendering of a copy plan into statement text,
one lowering per plan node kind. -/
def renderPlan : CopyPlan → String
  | CopyPlan.directAssign => "assign"
  | CopyPlan.allocateAndRecurse p => "alloc(" ++ renderPlan p ++ ")"
  | CopyPlan.elementwise p => "elems(" ++ renderPlan p ++ ")"
  | CopyPlan.fieldwise cs => "fields(" ++ renderFields cs ++ ")"
  | CopyPlan.dynamicDispatch => "iface"
  | CopyPlan.cycleGuard => "cycleguard"
  | CopyPlan.unresolvedRef => "unresolved"
  | CopyPlan.outOfFuel => "overflow"

/-- Rendering of the per-field children of a Fieldwise node, in declared
field order. -/
def renderFields : List (String × CopyPlan) → String
  | [] => ""
  | c :: rest => c.1 ++ ":" ++ renderPlan c.2 ++ ";" ++ renderFields rest

end

/-- deepcopy.SkipLists as the driver uses it (src/main.go:43): an ordered
list of selector sets, one per -skip occurrence. -/
abbrev SkipLists := List (Finset String)

/-- Modelled from the spec (GenerationRequest): the immutable per-run
configuration, fields in the order of the NewGenerator call at
src/main.go:145. -/
structure Generator where
  pointerReceiver : Bool
  method : String
  skips : SkipLists
  maxDepth : Nat
  anotherStruct : Bool
  returnInterface : String
  returnInterfaceDep : String
  returnInterfaceDepPath : String
  buildTags : List String

/-- Modelled from the spec (resolved package handed to the generator): an
arena of shape nodes plus the package's named type declarations, each
pointing at its root shape. -/
structure Package where
  arena : List ShapeNode
  decls : List (String × Nat)

/-- Modelled from the spec: the SkipSet positionally aligned with the i-th
requested type; a requested type with no corresponding skip entry has an
empty SkipSet. -/
def skipFor (skips : SkipLists) (i : Nat) : Finset String :=
  skips.getD i ∅

/-- Modelled from the spec: every requested type name must resolve to a
struct, or to a named type whose underlying shape is a struct. -/
def isStructLike (arena : List ShapeNode) : Nat → Nat → Bool
  | 0, _ => false
  | fuel + 1, id =>
    match arena.getD id ShapeNode.basic with
    | ShapeNode.struct _ => true
    | ShapeNode.named u _ => isStructLike arena fuel u
    | _ => false

/-- Modelled from the spec (Method Emitter): the build-tag header, one line
per configured tag. -/
def headerText (g : Generator) : String :=
  String.join (g.buildTags.map fun t => "// +build " ++ t ++ "\n")

/-- Modelled from the spec (Method Emitter): one function per requested
type; the signature is fully determined by the configuration - receiver
kind, method name, optional destination parameter, optional declared
return interface - and the body is the rendered plan. -/
def emitMethod (g : Generator) (name : String) (plan : CopyPlan) : String :=
  let recv := if g.pointerReceiver then "*" ++ name else name
  let ret := if g.returnInterface = "" then recv else g.returnInterface
  let dest := if g.anotherStruct then "(dst *" ++ name ++ ") " else ""
  "func (o " ++ recv ++ ") " ++ g.method ++ dest ++ " " ++ ret ++
    " [" ++ renderPlan plan ++ "]\n"

/-- Whether a requested type name resolves in the package to a struct-like
shape (the success condition of one resolver call). -/
def resolvable (pkg : Package) (t : String) : Bool :=
  match pkg.decls.lookup t with
  | some id => isStructLike pkg.arena (pkg.arena.length + 1) id
  | none => false

/-- The method texts of a list of requested types starting at positional
index i, concatenated in request order. -/
def emitAll (g : Generator) (pkg : Package) : List String → Nat → String
  | [], _ => ""
  | t :: rest, i =>
    emitMethod g t
        (walk pkg.arena (skipFor g.skips i) g.maxDepth
          ((pkg.decls.lookup t).getD 0) [] ∅ 0) ++
      emitAll g pkg rest (i + 1)

/-- Modelled from the spec: the generation error taxonomy surfaced by the
orchestrator (ConfigurationError, ResolutionError carrying the offending
requested name). -/
inductive GenError
  | configurationError
  | resolutionError (name : String)
deriving DecidableEq

/-- Modelled from the spec (Generator orchestration loop): for each
requested type in the order supplied - one resolver call per type, appended
to the call trace - resolve the name, require a struct-like shape, walk it
with its positionally aligned SkipSet, emit its method text into the
buffer; the first failure aborts with that error.  Only the all-success
exit returns the assembled buffer. -/
def genLoop (g : Generator) (pkg : Package) :
    List String → Nat → String → List String → Except GenError String × List String
  | [], _, buf, calls => (Except.ok (headerText g ++ buf), calls)
  | t :: rest, i, buf, calls =>
    let calls' := calls ++ [t]
    match pkg.decls.lookup t with
    | none => (Except.error (GenError.resolutionError t), calls')
    | some id =>
      if isStructLike pkg.arena (pkg.arena.length + 1) id then
        genLoop g pkg rest (i + 1)
          (buf ++ emitMethod g t
            (walk pkg.arena (skipFor g.skips i) g.maxDepth id [] ∅ 0))
          calls'
      else (Except.error (GenError.resolutionError t), calls')

/-- Modelled from the spec (Generator.Generate): validates the
configuration invariant - the destination parameter requires a pointer
receiver - before consulting the resolver (zero resolver calls on that
rejection), then processes the requested types in order, buffering output;
the buffered text is returned only when every requested type succeeded
(all-or-nothing).  The second component is the resolver call trace. -/
def Generator.Generate (g : Generator) (types : List String) (pkg : Package) :
    Except GenError String × List String :=
  if g.anotherStruct && !g.pointerReceiver then
    (Except.error GenError.configurationError, [])
  else genLoop g pkg types 0 "" []

/-- The errors run can return (src/main.go:160-172): a package-load
failure, the distinct "no package found" condition, or an error from the
generation core. -/
inductive RunError
  | loadingPackage (msg : String)
  | noPackageFound
  | generateError (e : GenError)
deriving DecidableEq

/-- run from src/main.go:160-172, with the result of the package loader
supplied as a value: a load error is wrapped as "loading package"; a
successful load with zero packages is the distinct "no package found"
error; otherwise Generate runs on the first package.  Components: the run
result (the generated text on success), the resolver call trace, and
whether the generation core was invoked at all. -/
def run (g : Generator) (types : List String)
    (loadRes : Except String (List Package)) :
    Except RunError String × List String × Bool :=
  match loadRes with
  | Except.error m => (Except.error (RunError.loadingPackage m), [], false)
  | Except.ok [] => (Except.error RunError.noPackageFound, [], false)
  | Except.ok (p :: _) =>
    match g.Generate types p with
    | (Except.ok text, calls) => (Except.ok text, calls, true)
    | (Except.error e, calls) => (Except.error (RunError.generateError e), calls, true)

/-- The parsed flag state main starts from (the package-level flag
variables of src/main.go:17-30 after flag.Parse, plus the positional
arguments). -/
structure Flags where
  pointerReceiver : Bool
  maxDepth : Nat
  method : String
  returnInterface : String
  returnInterfaceDep : String
  returnInterfaceDepPath : String
  anotherStruct : Bool
  types : List String
  skips : SkipLists
  output : outputVal
  buildTags : List String
  args : List String

/-- The NewGenerator construction at src/main.go:144-145, argument for
argument. -/
def mkGenerator (fl : Flags) : Generator :=
  ⟨fl.pointerReceiver, fl.method, fl.skips, fl.maxDepth, fl.anotherStruct,
    fl.returnInterface, fl.returnInterfaceDep, fl.returnInterfaceDepPath,
    fl.buildTags⟩

/-- How a main invocation ends: one constructor per log.Fatalln site of
src/main.go:133-158, or normal completion. -/
inductive MainResult
  | fatalNoType
  | fatalNoPackagePath
  | fatalRun (e : RunError)
  | okRun
deriving DecidableEq

/-- Everything observable about one main invocation: the final world, how
it ended, whether the package loader ran, whether the output sink was
opened, the resolver call trace, and whether the generation core ran. -/
structure RunOutcome where
  world : World
  result : MainResult
  loadCalled : Bool
  outputOpened : Bool
  resolverCalls : List String
  generateCalled : Bool
deriving DecidableEq

/-- mainFn models main from src/main.go:133-158 (the name main itself is reserved by Lean for an IO entry point), after flag parsing: reject a missing or
empty first type name, then a positional argument count other than one;
construct the generator, open (and for a named file truncate) the output
sink, run, and only on success write the generated text to the sink. -/
def mainFn (fl : Flags) (w : World) (loadRes : Except String (List Package)) :
    RunOutcome :=
  if fl.types = [] ∨ fl.types.headD "" = "" then
    ⟨w, MainResult.fatalNoType, false, false, [], false⟩
  else if fl.args.length ≠ 1 then
    ⟨w, MainResult.fatalNoPackagePath, false, false, [], false⟩
  else
    let g := mkGenerator fl
    let opened := outputVal.Open fl.output w
    match run g fl.types loadRes with
    | (Except.ok text, calls, gen) =>
        ⟨writeSink opened.1 opened.2 text, MainResult.okRun, true, true, calls, gen⟩
    | (Except.error e, calls, gen) =>
        ⟨opened.1, MainResult.fatalRun e, true, true, calls, gen⟩

/-- Folding a snoc-style flag setter over its occurrences appends one
translated element per occurrence, in order. -/
theorem foldl_snoc {α β : Type} (g : List β → α → List β) (el : α → β)
    (hg : ∀ l v, g l v = l ++ [el v]) :
    ∀ (occs : List α) (init : List β),
      List.foldl g init occs = init ++ occs.map el := by
  intro occs
  induction occs with
  | nil => intro init; simp
  | cons a rest ih =>
    intro init
    rw [List.foldl_cons, hg, ih]
    simp

/-- The skip lists accumulated over all -skip occurrences. -/
def buildSkips (occs : List String) : SkipLists :=
  List.foldl skipsVal.Set [] occs

/-- One comma-split selector set per -skip occurrence, in occurrence
order. -/
theorem buildSkips_eq_map (occs : List String) :
    buildSkips occs = occs.map fun s => (s.splitOn ",").toFinset := by
  rw [buildSkips, foldl_snoc skipsVal.Set (fun v => (v.splitOn ",").toFinset)
    (fun l v => rfl)]
  simp

/-- Looking up a key right after storing it returns the stored content. -/
theorem lookup_setAssoc_self (fs : List (String × String)) (n c : String) :
    (setAssoc fs n c).lookup n = some c := by
  induction fs with
  | nil => simp [setAssoc, List.lookup]
  | cons p rest ih =>
    rcases p with ⟨k, v⟩
    by_cases h : k = n
    · simp [setAssoc, h, List.lookup]
    · simp only [setAssoc, if_neg h, List.lookup]
      have : (n == k) = false := by
        simp [beq_eq_false_iff_ne]
        exact fun he => h he.symm
      rw [this]
      exact ih

/-- Permuted selector lists denote the same selector set. -/
theorem perm_toFinset {l1 l2 : List String} (h : l1.Perm l2) :
    l1.toFinset = l2.toFinset := by
  ext x
  simp [h.mem_iff]

/-- Inserting an unvisited arena index into the ancestor set strictly
shrinks the set of indices still available to the walk. -/
theorem card_sdiff_insert_lt (n id : Nat) (anc : Finset Nat)
    (h1 : id < n) (h2 : id ∉ anc) :
    ((Finset.range n) \ (insert id anc)).card < ((Finset.range n) \ anc).card := by
  have hsub : (Finset.range n) \ (insert id anc) ⊆ (Finset.range n) \ anc :=
    Finset.sdiff_subset_sdiff (Finset.Subset.refl _) (Finset.subset_insert id anc)
  apply Finset.card_lt_card
  rw [Finset.ssubset_iff_of_subset hsub]
  exact ⟨id, Finset.mem_sdiff.mpr ⟨Finset.mem_range.mpr h1, h2⟩,
    fun hx => (Finset.mem_sdiff.mp hx).2 (Finset.mem_insert_self id anc)⟩

/-- The fuel-indexed walk stabilizes: any two fuel budgets strictly above
the number of arena indices not yet on the ancestor path produce the same
copy plan.  This is the termination argument of the walker made explicit. -/
theorem walkF_stable (arena : List ShapeNode) (skips : Finset String) (maxDepth : Nat) :
    ∀ f1 f2 id path anc depth,
      ((Finset.range arena.length) \ anc).card < f1 →
      ((Finset.range arena.length) \ anc).card < f2 →
      walkF arena skips maxDepth f1 id path anc depth =
        walkF arena skips maxDepth f2 id path anc depth := by
  intro f1
  induction f1 with
  | zero =>
    intro f2 id path anc depth h1 h2
    exact absurd h1 (Nat.not_lt_zero _)
  | succ k ih =>
    intro f2 id path anc depth h1 h2
    cases f2 with
    | zero => exact absurd h2 (Nat.not_lt_zero _)
    | succ l =>
      simp only [walkF]
      cases harena : arena[id]? with
      | none => rfl
      | some shape =>
        have hid : id < arena.length := (List.getElem?_eq_some.mp harena).1
        by_cases hm : matchAnyB skips path
        · simp [hm]
        · by_cases hcut : depthCut maxDepth depth shape
          · simp [hm, hcut]
          · by_cases hmem : id ∈ anc
            · simp [hm, hcut, hmem]
            · have hrec : ∀ c path2 depth2,
                  walkF arena skips maxDepth k c path2 (insert id anc) depth2 =
                    walkF arena skips maxDepth l c path2 (insert id anc) depth2 := by
                intro c path2 depth2
                have hlt := card_sdiff_insert_lt arena.length id anc hid hmem
                exact ih l c path2 (insert id anc) depth2
                  (lt_of_lt_of_le hlt (Nat.lt_succ_iff.mp h1))
                  (lt_of_lt_of_le hlt (Nat.lt_succ_iff.mp h2))
              cases shape with
              | basic => simp [hm, hcut, hmem]
              | interface => simp [hm, hcut, hmem]
              | named u p => simp [hm, hcut, hmem, hrec]
              | pointer e => simp [hm, hcut, hmem, hrec]
              | slice e => simp [hm, hcut, hmem, hrec]
              | array e len => simp [hm, hcut, hmem, hrec]
              | map ky e => simp [hm, hcut, hmem, hrec]
              | struct fields =>
                simp only [hm, hcut, hmem, Bool.false_eq_true, if_false, ite_false]
                congr 1
                apply List.map_congr_left
                intro a _
                rw [hrec]

/-- When every requested type resolves to a struct-like shape, the
generation loop succeeds, its output consists of the buffered header plus
one emitted method per requested type in request order, and its resolver
call trace lists exactly the requested types in order. -/
theorem genLoop_ok (g : Generator) (pkg : Package) :
    ∀ (ts : List String) (i : Nat) (buf : String) (calls : List String),
      (∀ t ∈ ts, resolvable pkg t = true) →
      genLoop g pkg ts i buf calls =
        (Except.ok (headerText g ++ buf ++ emitAll g pkg ts i), calls ++ ts) := by
  intro ts
  induction ts with
  | nil =>
    intro i buf calls _
    simp [genLoop, emitAll]
  | cons t rest ih =>
    intro i buf calls h
    have ht : resolvable pkg t = true := h t (List.mem_cons_self t rest)
    have hrest : ∀ x ∈ rest, resolvable pkg x = true := fun x hx =>
      h x (List.mem_cons_of_mem t hx)
    cases hl : pkg.decls.lookup t with
    | none =>
      simp only [resolvable, hl] at ht
      exact Bool.noConfusion ht
    | some id =>
      have hs : isStructLike pkg.arena (pkg.arena.length + 1) id = true := by
        simpa only [resolvable, hl] using ht
      simp only [genLoop, hl, hs, if_true, emitAll]
      rw [ih (i + 1) _ _ hrest]
      simp [String.append_assoc]

/-- C8: a package load that succeeds with zero packages makes the run fail
immediately with the distinct "no package found" error; the generation core
is never invoked and no resolver call occurs. -/
theorem empty_package_list_fatal (g : Generator) (types : List String) :
    run g types (Except.ok []) =
      (Except.error RunError.noPackageFound, [], false) :=
  rfl

/-- A configuration with the tag list produced by one -tags occurrence of
value "T1,T2". -/
def c5Gen : Generator :=
  ⟨false, "DeepCopy", [], 0, false, "", "", "", ["T1,T2"]⟩

/-- C5 counterexample: a single -tags occurrence with value "T1,T2" stores
the one element "T1,T2" in the driver's tag list - not the two tags "T1"
and "T2" the claim asserts. -/
theorem tags_flag_no_comma_split_cex :
    List.foldl buildTagsVal.Set [] ["T1,T2"] = ["T1,T2"] ∧
    (["T1,T2"] : List String) ≠ ["T1", "T2"] := by
  constructor
  · rfl
  · decide

/-- C5 amended: each -tags occurrence appends its raw argument verbatim as
a single element of the tag list - the driver performs no comma splitting
(contrast -skip) - and the header emission treats each stored element as
one build-tag header line. -/
theorem tags_flag_appends_raw :
    (∀ (tags occs : List String),
        List.foldl buildTagsVal.Set tags occs = tags ++ occs) ∧
    headerText c5Gen = "// +build T1,T2\n" := by
  constructor
  · intro tags occs
    rw [foldl_snoc buildTagsVal.Set id (fun l v => rfl)]
    simp
  · rfl

/-- C6: each -skip occurrence contributes exactly one selector set - the
comma-split parts of its argument with duplicates collapsed - in occurrence
order, and a position beyond the skip list yields the empty SkipSet (the
set the generation loop pairs with the equally positioned requested
type). -/
theorem skip_flag_one_set_per_occurrence
    (occs : List String) (v : String) (skips : SkipLists) (i : Nat)
    (h : skips.length ≤ i) :
    buildSkips occs = (occs.map fun s => (s.splitOn ",").toFinset) ∧
    (v.splitOn ",").toFinset = ((v.splitOn ",").dedup).toFinset ∧
    skipFor skips i = (∅ : Finset String) := by
  refine ⟨buildSkips_eq_map occs, ?_, ?_⟩
  · ext x
    simp
  · rw [skipFor, List.getD_eq_default _ _ h]

/-- Witness for C6 at concrete inputs: two -skip occurrences, a duplicated
selector, and a requested-type position with no skip entry. -/
theorem skip_flag_one_set_per_occurrence_w :
    buildSkips ["a,b,a", "c"] =
      ((["a,b,a", "c"] : List String).map fun s => (s.splitOn ",").toFinset) ∧
    ("a,b,a".splitOn ",").toFinset = (("a,b,a".splitOn ",").dedup).toFinset ∧
    skipFor [(∅ : Finset String)] 3 = (∅ : Finset String) :=
  skip_flag_one_set_per_occurrence ["a,b,a", "c"] "a,b,a" [∅] 3 (by decide)

/-- C7: a -o value of "-" or "" selects the standard output stream and
leaves the world untouched; the default state with no file set opens as the
standard output stream; any other value holds the named file, and opening
it for writing truncates it to empty content first. -/
theorem output_flag_destination :
    (∀ (st : outputVal) (w : World) (v : String), (v = "-" ∨ v = "") →
        (outputVal.Set st w v).1.file = none ∧ (outputVal.Set st w v).2 = w) ∧
    (∀ (st : outputVal) (w : World), st.file = none →
        outputVal.Open st w = (w, Sink.stdout)) ∧
    (∀ (st : outputVal) (w : World) (v : String), v ≠ "-" → v ≠ "" →
        (outputVal.Set st w v).1.file = some v ∧
        (outputVal.Open (outputVal.Set st w v).1 (outputVal.Set st w v).2).2 =
          Sink.file v ∧
        ((outputVal.Open (outputVal.Set st w v).1
            (outputVal.Set st w v).2).1.files.lookup v) = some "") := by
  refine ⟨?_, ?_, ?_⟩
  · intro st w v hv
    simp [outputVal.Set, hv]
  · intro st w h
    simp [outputVal.Open, h]
  · intro st w v h1 h2
    have hcond : ¬(v = "-" ∨ v = "") := by
      rintro (h | h)
      · exact h1 h
      · exact h2 h
    simp [outputVal.Set, outputVal.Open, hcond, lookup_setAssoc_self]

/-- Witness for C7 at concrete inputs: the stream cases "-" and "", and a
named file with pre-existing content that gets truncated on Open. -/
theorem output_flag_destination_w :
    ((outputVal.Set ⟨"", none⟩ ⟨[], ""⟩ "-").1.file = none ∧
      (outputVal.Set ⟨"", none⟩ ⟨[], ""⟩ "-").2 = ⟨[], ""⟩) ∧
    outputVal.Open ⟨"", none⟩ ⟨[], ""⟩ = (⟨[], ""⟩, Sink.stdout) ∧
    ((outputVal.Set ⟨"", none⟩ ⟨[("o.go", "OLD")], ""⟩ "o.go").1.file = some "o.go" ∧
      (outputVal.Open (outputVal.Set ⟨"", none⟩ ⟨[("o.go", "OLD")], ""⟩ "o.go").1
          (outputVal.Set ⟨"", none⟩ ⟨[("o.go", "OLD")], ""⟩ "o.go").2).2 =
        Sink.file "o.go" ∧
      ((outputVal.Open (outputVal.Set ⟨"", none⟩ ⟨[("o.go", "OLD")], ""⟩ "o.go").1
          (outputVal.Set ⟨"", none⟩ ⟨[("o.go", "OLD")], ""⟩ "o.go").2).1.files.lookup
          "o.go") = some "") :=
  ⟨output_flag_destination.1 ⟨"", none⟩ ⟨[], ""⟩ "-" (Or.inl rfl),
    output_flag_destination.2.1 ⟨"", none⟩ ⟨[], ""⟩ rfl,
    output_flag_destination.2.2 ⟨"", none⟩ ⟨[("o.go", "OLD")], ""⟩ "o.go"
      (by decide) (by decide)⟩

/-- C10: with no -type occurrence, or a first type name that is empty, main
aborts fatally before the loader runs and before the sink is opened or
written, leaving the world untouched; an empty type name after the first
position is not rejected by this check. -/
theorem missing_type_fatal_before_load :
    (∀ (fl : Flags) (w : World) (lr : Except String (List Package)),
        (fl.types = [] ∨ fl.types.headD "" = "") →
        mainFn fl w lr = ⟨w, MainResult.fatalNoType, false, false, [], false⟩) ∧
    (∀ (fl : Flags) (w : World) (lr : Except String (List Package))
        (t : String) (rest : List String),
        fl.types = t :: rest → t ≠ "" →
        (mainFn fl w lr).result ≠ MainResult.fatalNoType) := by
  constructor
  · intro fl w lr h
    unfold mainFn
    rw [if_pos h]
  · intro fl w lr t rest hty ht
    have hcond : ¬(fl.types = [] ∨ fl.types.headD "" = "") := by
      rw [hty]
      simp [ht]
    simp only [mainFn, if_neg hcond]
    by_cases ha : fl.args.length ≠ 1
    · simp [ha]
    · simp only [if_neg ha]
      rcases hr : run (mkGenerator fl) fl.types lr with ⟨res, calls, gen⟩
      cases res <;> simp

/-- Witness for C10 at concrete inputs: a run with no types at all, and a
run whose second type name is empty but whose first is not. -/
theorem missing_type_fatal_before_load_w :
    mainFn ⟨false, 0, "DeepCopy", "", "", "", false, [], [], ⟨"", none⟩, [], ["./p"]⟩
        ⟨[], ""⟩ (Except.error "unused") =
      ⟨⟨[], ""⟩, MainResult.fatalNoType, false, false, [], false⟩ ∧
    (mainFn ⟨false, 0, "DeepCopy", "", "", "", false, ["A", ""], [], ⟨"", none⟩, [],
        ["./p"]⟩ ⟨[], ""⟩ (Except.error "unused")).result ≠
      MainResult.fatalNoType :=
  ⟨missing_type_fatal_before_load.1 _ _ _ (Or.inl rfl),
    missing_type_fatal_before_load.2 _ _ _ "A" [""] rfl (by decide)⟩

/-- The flag state of the C1 scenario: -o names an existing file and the
single requested type is absent from the package. -/
def c1Flags : Flags :=
  ⟨false, 0, "DeepCopy", "", "", "", false, ["Missing"], [],
    ⟨"out.go", some "out.go"⟩, [], ["./pkg"]⟩

/-- The resolved package of the C1 scenario: no declarations at all. -/
def c1Pkg : Package :=
  ⟨[], []⟩

/-- C1 counterexample: parsing -o keeps the pre-existing content "OLD"
intact, yet after a run that fails with a ResolutionError the file's
content is "" - main's Open truncated it before generation ran - so the
pre-existing sink does not remain untouched. -/
theorem resolution_error_sink_truncated_cex :
    outputVal.Set ⟨"", none⟩ ⟨[("out.go", "OLD")], ""⟩ "out.go" =
      (⟨"out.go", some "out.go"⟩, ⟨[("out.go", "OLD")], ""⟩) ∧
    (mainFn c1Flags ⟨[("out.go", "OLD")], ""⟩ (Except.ok [c1Pkg])).result =
      MainResult.fatalRun (RunError.generateError (GenError.resolutionError "Missing")) ∧
    (mainFn c1Flags ⟨[("out.go", "OLD")], ""⟩ (Except.ok [c1Pkg])).world.files =
      [("out.go", "")] ∧
    ([("out.go", "")] : List (String × String)) ≠ [("out.go", "OLD")] := by
  refine ⟨by decide, by decide, by decide, by decide⟩

/-- C1 amended: on any failing run no write ever reaches the sink - the
final world is exactly the world as it stands right after the Open step -
so no generated output is written on failure; but when -o names a file,
that Open step has already truncated it to empty content before generation
was attempted. -/
theorem failed_run_writes_nothing_after_truncate
    (fl : Flags) (w : World) (lr : Except String (List Package)) (e : RunError)
    (h1 : fl.types ≠ [])
    (h2 : fl.types.headD "" ≠ "")
    (h3 : fl.args.length = 1)
    (h4 : (run (mkGenerator fl) fl.types lr).1 = Except.error e) :
    (mainFn fl w lr).world = (outputVal.Open fl.output w).1 ∧
    (mainFn fl w lr).result = MainResult.fatalRun e ∧
    (∀ n, fl.output.file = some n →
        ((mainFn fl w lr).world.files.lookup n) = some "") := by
  have hcond : ¬(fl.types = [] ∨ fl.types.headD "" = "") := by
    rintro (h | h)
    · exact h1 h
    · exact h2 h
  have ha : ¬(fl.args.length ≠ 1) := fun hne => hne h3
  rcases hr : run (mkGenerator fl) fl.types lr with ⟨res, calls, gen⟩
  rw [hr] at h4
  simp only at h4
  subst h4
  simp only [mainFn, if_neg hcond, if_neg ha, hr]
  refine ⟨trivial, trivial, ?_⟩
  intro n hn
  simp [outputVal.Open, hn, lookup_setAssoc_self]

/-- Witness for C1 (amended) at the concrete C1 scenario. -/
theorem failed_run_writes_nothing_after_truncate_w :
    (mainFn c1Flags ⟨[("out.go", "OLD")], ""⟩ (Except.ok [c1Pkg])).world =
      (outputVal.Open c1Flags.output ⟨[("out.go", "OLD")], ""⟩).1 ∧
    (mainFn c1Flags ⟨[("out.go", "OLD")], ""⟩ (Except.ok [c1Pkg])).result =
      MainResult.fatalRun (RunError.generateError (GenError.resolutionError "Missing")) ∧
    ((mainFn c1Flags ⟨[("out.go", "OLD")], ""⟩
        (Except.ok [c1Pkg])).world.files.lookup "out.go") = some "" := by
  have h := failed_run_writes_nothing_after_truncate c1Flags
    ⟨[("out.go", "OLD")], ""⟩ (Except.ok [c1Pkg])
    (RunError.generateError (GenError.resolutionError "Missing"))
    (by decide) (by decide) (by decide) (by rfl)
  exact ⟨h.1, h.2.1, h.2.2 "out.go" rfl⟩

/-- C2: requesting the destination parameter together with a value
receiver is rejected with a ConfigurationError before any resolver call
occurs - the resolver trace is empty - both at the Generate entry point and
end to end through the driver. -/
theorem destination_param_value_receiver_rejected
    (g : Generator) (types : List String) (pkg : Package)
    (fl : Flags) (w : World) (p : Package) (ps : List Package)
    (hg1 : g.anotherStruct = true) (hg2 : g.pointerReceiver = false)
    (hf1 : fl.anotherStruct = true) (hf2 : fl.pointerReceiver = false)
    (hty1 : fl.types ≠ []) (hty2 : fl.types.headD "" ≠ "")
    (hargs : fl.args.length = 1) :
    g.Generate types pkg = (Except.error GenError.configurationError, []) ∧
    (mainFn fl w (Except.ok (p :: ps))).result =
      MainResult.fatalRun (RunError.generateError GenError.configurationError) ∧
    (mainFn fl w (Except.ok (p :: ps))).resolverCalls = [] := by
  have hcond : ¬(fl.types = [] ∨ fl.types.headD "" = "") := by
    rintro (h | h)
    · exact hty1 h
    · exact hty2 h
  have ha : ¬(fl.args.length ≠ 1) := fun hne => hne hargs
  have hgen : (mkGenerator fl).Generate fl.types p =
      (Except.error GenError.configurationError, []) := by
    simp [Generator.Generate, mkGenerator, hf1, hf2]
  have hrun : run (mkGenerator fl) fl.types (Except.ok (p :: ps)) =
      (Except.error (RunError.generateError GenError.configurationError), [], true) := by
    simp [run, hgen]
  refine ⟨by simp [Generator.Generate, hg1, hg2], ?_, ?_⟩ <;>
    simp only [mainFn, if_neg hcond, if_neg ha, hrun]

/-- Witness for C2 at a concrete configuration with -another-struct set and
a value receiver. -/
theorem destination_param_value_receiver_rejected_w :
    Generator.Generate ⟨false, "DeepCopy", [], 0, true, "", "", "", []⟩ ["T"] c1Pkg =
      (Except.error GenError.configurationError, []) ∧
    (mainFn ⟨false, 0, "DeepCopy", "", "", "", true, ["T"], [], ⟨"", none⟩, [], ["./p"]⟩
        ⟨[], ""⟩ (Except.ok (c1Pkg :: []))).result =
      MainResult.fatalRun (RunError.generateError GenError.configurationError) ∧
    (mainFn ⟨false, 0, "DeepCopy", "", "", "", true, ["T"], [], ⟨"", none⟩, [], ["./p"]⟩
        ⟨[], ""⟩ (Except.ok (c1Pkg :: []))).resolverCalls = [] :=
  destination_param_value_receiver_rejected
    ⟨false, "DeepCopy", [], 0, true, "", "", "", []⟩ ["T"] c1Pkg
    ⟨false, 0, "DeepCopy", "", "", "", true, ["T"], [], ⟨"", none⟩, [], ["./p"]⟩
    ⟨[], ""⟩ c1Pkg [] rfl rfl rfl rfl (by decide) (by decide) (by decide)

/-- C9: each -type occurrence contributes exactly one requested name, in
flag order, and generation processes exactly those names in that order: on
an all-resolvable request the resolver call trace equals the requested list
and the output concatenates the per-type method texts in the same order. -/
theorem types_processed_in_order :
    (∀ occs : List String, List.foldl typesVal.Set [] occs = occs) ∧
    (∀ (g : Generator) (types : List String) (pkg : Package),
        (g.anotherStruct && !g.pointerReceiver) = false →
        (∀ t ∈ types, resolvable pkg t = true) →
        g.Generate types pkg =
          (Except.ok (headerText g ++ emitAll g pkg types 0), types)) := by
  constructor
  · intro occs
    rw [foldl_snoc typesVal.Set id (fun l v => rfl)]
    simp
  · intro g types pkg hcfg hres
    simp only [Generator.Generate, hcfg, Bool.false_eq_true, if_false, ite_false]
    rw [genLoop_ok g pkg types 0 "" [] hres]
    simp

/-- A two-declaration package in which both requested names resolve to the
same struct shape. -/
def c9Pkg : Package :=
  ⟨[ShapeNode.struct [("X", 1)], ShapeNode.basic], [("A", 0), ("B", 0)]⟩

/-- The default configuration of the C9 witness. -/
def c9Gen : Generator :=
  ⟨false, "DeepCopy", [], 0, false, "", "", "", []⟩

/-- Witness for C9 at concrete inputs: two -type occurrences generated in
their flag order. -/
theorem types_processed_in_order_w :
    List.foldl typesVal.Set [] ["A", "B"] = ["A", "B"] ∧
    c9Gen.Generate ["A", "B"] c9Pkg =
      (Except.ok (headerText c9Gen ++ emitAll c9Gen c9Pkg ["A", "B"] 0), ["A", "B"]) :=
  ⟨types_processed_in_order.1 ["A", "B"],
    types_processed_in_order.2 c9Gen ["A", "B"] c9Pkg (by decide) (by decide)⟩

/-- C3: generation output is a pure function of the configuration and the
resolved input, and depends on each -skip occurrence only through the
selector set it denotes: two runs whose per-occurrence selector lists are
permutations of each other (and that agree everywhere else) produce
byte-identical output - and the driver's accumulated skip lists are exactly
the per-occurrence comma-part selector sets this abstraction ranges over. -/
theorem generation_deterministic_in_skip_sets
    (pr as : Bool) (m ri rid ridp : String) (md : Nat) (tags : List String)
    (types : List String) (pkg : Package) (parts1 parts2 : List (List String))
    (hlen : parts1.length = parts2.length)
    (hperm : ∀ i, (parts1.getD i []).Perm (parts2.getD i [])) :
    Generator.Generate
        ⟨pr, m, parts1.map List.toFinset, md, as, ri, rid, ridp, tags⟩ types pkg =
      Generator.Generate
        ⟨pr, m, parts2.map List.toFinset, md, as, ri, rid, ridp, tags⟩ types pkg ∧
    (∀ occs : List String,
        buildSkips occs = (occs.map fun s => s.splitOn ",").map List.toFinset) := by
  constructor
  · have hsk : parts1.map List.toFinset = parts2.map List.toFinset := by
      apply List.ext_getElem
      · simpa using hlen
      · intro i hi1 hi2
        simp only [List.getElem_map]
        have hp := hperm i
        rw [List.getD_eq_getElem parts1 [] (by simpa using hi1),
          List.getD_eq_getElem parts2 [] (by simpa using hi2)] at hp
        exact perm_toFinset hp
    rw [hsk]
  · intro occs
    rw [buildSkips_eq_map, List.map_map]
    rfl

/-- A one-declaration package for the C3 witness. -/
def c3Pkg : Package :=
  ⟨[ShapeNode.struct [("X", 1)], ShapeNode.basic], [("T", 0)]⟩

/-- Witness for C3 at concrete inputs: the same selector set supplied in
two different orders inside the one -skip occurrence. -/
theorem generation_deterministic_in_skip_sets_w :
    Generator.Generate
        ⟨false, "DeepCopy", [["b", "a"]].map List.toFinset, 0, false, "", "", "", []⟩
        ["T"] c3Pkg =
      Generator.Generate
        ⟨false, "DeepCopy", [["a", "b"]].map List.toFinset, 0, false, "", "", "", []⟩
        ["T"] c3Pkg ∧
    (∀ occs : List String,
        buildSkips occs = (occs.map fun s => s.splitOn ",").map List.toFinset) :=
  generation_deterministic_in_skip_sets false false "DeepCopy" "" "" "" 0 [] ["T"] c3Pkg
    [["b", "a"]] [["a", "b"]] rfl (fun i => by
      cases i with
      | zero => decide
      | succ n =>
        rw [List.getD_eq_default _ _ (by simp), List.getD_eq_default _ _ (by simp)])

/-- C4 amended: the walk terminates on every arena, shape and maxDepth -
the fuel-indexed walk stabilizes as soon as the fuel exceeds the number of
arena indices not yet on the ancestor path - and a shape already on the
ancestor path is emitted as CycleGuard whenever neither a selector match
nor the depth-budget cut fires first; with maxDepth = 0 the depth cut never
fires, so there the on-path check always yields CycleGuard. -/
theorem walk_stabilizes_and_guards_cycles
    (arena : List ShapeNode) (skips : Finset String) (maxDepth : Nat) :
    (∀ f1 f2 id path anc depth,
        ((Finset.range arena.length) \ anc).card < f1 →
        ((Finset.range arena.length) \ anc).card < f2 →
        walkF arena skips maxDepth f1 id path anc depth =
          walkF arena skips maxDepth f2 id path anc depth) ∧
    (∀ id shape path anc depth,
        arena[id]? = some shape →
        matchAnyB skips path = false →
        depthCut maxDepth depth shape = false →
        id ∈ anc →
        walk arena skips maxDepth id path anc depth = CopyPlan.cycleGuard) := by
  constructor
  · exact walkF_stable arena skips maxDepth
  · intro id shape path anc depth hshape hmatch hcut hmem
    show walkF arena skips maxDepth (arena.length + 1) id path anc depth =
      CopyPlan.cycleGuard
    simp only [walkF, hshape, hmatch, hcut, Bool.false_eq_true, if_false, ite_false]
    rw [if_pos hmem]

/-- Witness for C4 (amended) at a concrete self-referential arena: the walk
is fuel-independent, and with no depth cut in the way the on-path pointer
shape becomes CycleGuard. -/
theorem walk_stabilizes_and_guards_cycles_w :
    walkF [ShapeNode.pointer 0] (∅ : Finset String) 0 2 0 [] (∅ : Finset Nat) 0 =
      walkF [ShapeNode.pointer 0] (∅ : Finset String) 0 5 0 [] (∅ : Finset Nat) 0 ∧
    walk [ShapeNode.pointer 0] (∅ : Finset String) 0 0 [] ({0} : Finset Nat) 3 =
      CopyPlan.cycleGuard :=
  ⟨(walk_stabilizes_and_guards_cycles [ShapeNode.pointer 0] ∅ 0).1 2 5 0 [] ∅ 0
      (by decide) (by decide),
    (walk_stabilizes_and_guards_cycles [ShapeNode.pointer 0] ∅ 0).2 0
      (ShapeNode.pointer 0) [] {0} 3 (by decide) (by decide) (by decide) (by decide)⟩

/-- C4 counterexample: in the walk's check order the depth-budget cut
precedes the ancestor-stack check, so a pointer shape that is already on
the ancestor path while the nonzero depth budget is exhausted is emitted as
DirectAssign, not CycleGuard. -/
theorem cycle_guard_preempted_by_depth_cex :
    walk [ShapeNode.pointer 0] (∅ : Finset String) 1 0 [] ({0} : Finset Nat) 1 =
      CopyPlan.directAssign ∧
    (0 : Nat) ∈ ({0} : Finset Nat) ∧
    matchAnyB (∅ : Finset String) [] = false ∧
    CopyPlan.directAssign ≠ CopyPlan.cycleGuard := by
  refine ⟨rfl, by decide, by decide, fun h => CopyPlan.noConfusion h⟩
